import Mathlib

/-!
Shallow embedding of the report reconciliation logic of
`internal/resources/grafana/resource_report.go`: the custom-interval grammar
parser, the schedule translator (forward and reverse), the dashboard binding
resolver, the report config assembler, the dashboard-zeroth-entry read path,
and the start/end time diff-suppress equivalences, together with theorems
settling the frozen claims about them.

Go machine integers are modelled as `Int`/`Nat` with explicit 64-bit range
checks where the source (via `strconv.Atoi`) enforces them.  Fallible Go code
returning `error` is modelled with `Except String`.  Go structs are modelled
as Lean structures; a Go pointer field that may stay `nil` is an `Option`.
-/

/-! ## Frequency / format string constants (source lines 23-45) -/

def reportFrequencyHourly : String := "hourly"

def reportFrequencyDaily : String := "daily"

def reportFrequencyWeekly : String := "weekly"

def reportFrequencyMonthly : String := "monthly"

def reportFrequencyCustom : String := "custom"

def reportFrequencyOnce : String := "once"

def reportFrequencyNever : String := "never"

def reportFormatPDF : String := "pdf"

/-! ## Go string helpers

`strings.Split(v, " ")` splits around every single occurrence of the
separator; `strings.Split("", " ") = [""]`.  We model it on the character
list of the string. -/

def splitOnChar (sep : Char) : List Char → List (List Char)
  | [] => [[]]
  | c :: cs =>
    let r := splitOnChar sep cs
    if c = sep then [] :: r
    else
      match r with
      | [] => [[c]]
      | t :: ts => (c :: t) :: ts

/-- Model of Go `strings.Split(s, sep)` for a one-character separator. -/
def goSplit (sep : Char) (s : String) : List String :=
  (splitOnChar sep s.data).map String.mk

/-! ## Decimal digits: reading and printing

`digitsValCore`/`digitsVal` model the digit-consuming loop of
`strconv.Atoi`: every character must be an ASCII digit, the value is
accumulated in base 10.  `natToString` is the canonical decimal numeral
(used both to state the round-trip claim and to model `fmt.Sprintf("%d")`). -/

def digitsValCore : List Char → Nat → Option Nat
  | [], acc => some acc
  | c :: cs, acc =>
    if 48 ≤ c.toNat ∧ c.toNat ≤ 57 then
      digitsValCore cs (acc * 10 + (c.toNat - 48))
    else none

def digitsVal (l : List Char) : Option Nat :=
  match l with
  | [] => none
  | _ :: _ => digitsValCore l 0

def digitChar (d : Nat) : Char := Char.ofNat (48 + d)

/-- Decimal digits of `n`, most significant first, via explicit fuel so that
the kernel can evaluate it. -/
def natDigitsAux : Nat → Nat → List Char
  | 0, _ => []
  | fuel + 1, n =>
    if n < 10 then [digitChar n]
    else natDigitsAux fuel (n / 10) ++ [digitChar (n % 10)]

def natToString (n : Nat) : String := ⟨natDigitsAux (n + 1) n⟩

/-- Model of Go `fmt.Sprintf("%d", v)` for a 64-bit integer value. -/
def intToString (v : Int) : String :=
  if v < 0 then "-" ++ natToString v.natAbs else natToString v.toNat

/-! ## `strconv.Atoi` (source line 599)

Go's `Atoi(s)` is `ParseInt(s, 10, 0)` with the platform `int` width, 64
bits: an optional `+`/`-` sign, one or more decimal digits, value within
`[-2^63, 2^63 - 1]`; anything else (including range overflow) is an error,
modelled as `none`. -/

def goAtoi (s : String) : Option Int :=
  match s.data with
  | [] => none
  | c :: cs =>
    let digits := if c = '-' ∨ c = '+' then cs else c :: cs
    match digitsVal digits with
    | none => none
    | some n =>
      let v : Int := if c = '-' then -(n : Int) else (n : Int)
      if -(2 ^ 63) ≤ v ∧ v ≤ 2 ^ 63 - 1 then some v else none

/-! ## Interval Grammar Parser (source lines 590-610, `parseCustomReportInterval`) -/

/-- The single uniform grammar error of `parseCustomReportInterval`. -/
def customIntervalParseErr : String :=
  "custom_interval must be in format `<number> <unit>` where unit is one of `hours`, `days`, `weeks`, `months`"

/-- Model of `parseCustomReportInterval`.  The Go function takes an
`interface{}` and type-asserts it to `string`; we model the string domain.
Token-count check, then `strconv.Atoi` on the first token, then the literal
unit check, each failure returning the same `parseErr`. -/
def parseCustomReportInterval (v : String) : Except String (Int × String) :=
  match goSplit ' ' v with
  | [number, unit] =>
    match goAtoi number with
    | none => .error customIntervalParseErr
    | some n =>
      if unit ≠ "hours" ∧ unit ≠ "days" ∧ unit ≠ "weeks" ∧ unit ≠ "months" then
        .error customIntervalParseErr
      else .ok (n, unit)
  | _ => .error customIntervalParseErr

/-- Model of the read path's `fmt.Sprintf("%d %s", amount, unit)`
(source line 396). -/
def formatCustomInterval (amount : Int) (unit : String) : String :=
  intToString amount ++ " " ++ unit

/-! ## Time Normalizer: Go `time.Parse(time.RFC3339, s)`

An instant is modelled as nanoseconds since `0001-01-01T00:00:00Z` (the Go
zero `time.Time`), so the zero instant is `0`.  The accepted grammar is the
RFC3339 layout `2006-01-02T15:04:05Z07:00`: four-digit year, two-digit
month/day/hour/minute/second with range validation (leap years included),
optional fractional seconds (`.` followed by at least one digit), and either
`Z` or a `±hh:mm` numeric offset.  `time.Time.Equal` and `Before` compare
these absolute instants. -/

def isDigitChar (c : Char) : Bool := 48 ≤ c.toNat && c.toNat ≤ 57

def readDigits (l : List Char) (k : Nat) : Option (Nat × List Char) :=
  match k, l with
  | 0, rest => some (0, rest)
  | _ + 1, [] => none
  | k + 1, c :: cs =>
    if isDigitChar c then
      match readDigits cs k with
      | none => none
      | some (v, rest) => some ((c.toNat - 48) * 10 ^ k + v, rest)
    else none

def expectChar (c : Char) (l : List Char) : Option (List Char) :=
  match l with
  | [] => none
  | x :: xs => if x = c then some xs else none

/-- Days in a month of the proleptic Gregorian calendar. -/
def daysInMonth (year month : Nat) : Nat :=
  if month = 2 then
    if year % 4 = 0 ∧ (year % 100 ≠ 0 ∨ year % 400 = 0) then 29 else 28
  else if month = 4 ∨ month = 6 ∨ month = 9 ∨ month = 11 then 30
  else 31

/-- Julian day number of a proleptic Gregorian date (standard formula; all
intermediate values are non-negative for the years `0..9999` after the
`+4800` shift). -/
def julianDayNumber (year month day : Nat) : Int :=
  let a : Int := (14 - (month : Int)) / 12
  let y : Int := (year : Int) + 4800 - a
  let m : Int := (month : Int) + 12 * a - 3
  (day : Int) + (153 * m + 2) / 5 + 365 * y + y / 4 - y / 100 + y / 400 - 32045

/-- Days since `0001-01-01` (Go's zero date); `julianDayNumber 1 1 1 = 1721426`. -/
def daysSinceGoZero (year month day : Nat) : Int :=
  julianDayNumber year month day - 1721426

/-- Nanoseconds denoted by the fractional-second digits (first nine digits,
right-padded with zeros, as Go truncates beyond nanoseconds). -/
def fracNanos (digits : List Char) : Nat :=
  let d9 := digits.take 9
  (d9.foldl (fun a c => a * 10 + (c.toNat - 48)) 0) * 10 ^ (9 - d9.length)

/-- Parse the optional fractional seconds: either nothing, or `.` followed by
one or more digits. -/
def parseFrac (l : List Char) : Option (Nat × List Char) :=
  match l with
  | '.' :: rest =>
    let ds := rest.takeWhile (fun c => isDigitChar c)
    if ds.isEmpty then none else some (fracNanos ds, rest.drop ds.length)
  | rest => some (0, rest)

/-- Parse the timezone suffix, returning the offset east of UTC in seconds. -/
def parseOffset (l : List Char) : Option Int :=
  match l with
  | ['Z'] => some 0
  | s :: rest =>
    if s = '+' ∨ s = '-' then
      match readDigits rest 2 with
      | some (oh, r1) =>
        match expectChar ':' r1 with
        | some r2 =>
          match readDigits r2 2 with
          | some (om, []) =>
            if oh ≤ 23 ∧ om ≤ 59 then
              some ((if s = '-' then -1 else 1) * ((oh : Int) * 3600 + om * 60))
            else none
          | _ => none
        | none => none
      | none => none
    else none
  | _ => none

/-- Model of `time.Parse(time.RFC3339, s)`: `none` on any parse error,
otherwise the absolute instant in nanoseconds since the Go zero time. -/
def goParseRFC3339 (s : String) : Option Int :=
  match readDigits s.data 4 with
  | none => none
  | some (year, r1) =>
  match expectChar '-' r1 with
  | none => none
  | some r2 =>
  match readDigits r2 2 with
  | none => none
  | some (month, r3) =>
  match expectChar '-' r3 with
  | none => none
  | some r4 =>
  match readDigits r4 2 with
  | none => none
  | some (day, r5) =>
  match expectChar 'T' r5 with
  | none => none
  | some r6 =>
  match readDigits r6 2 with
  | none => none
  | some (hour, r7) =>
  match expectChar ':' r7 with
  | none => none
  | some r8 =>
  match readDigits r8 2 with
  | none => none
  | some (minute, r9) =>
  match expectChar ':' r9 with
  | none => none
  | some r10 =>
  match readDigits r10 2 with
  | none => none
  | some (second, r11) =>
  match parseFrac r11 with
  | none => none
  | some (nanos, r12) =>
  match parseOffset r12 with
  | none => none
  | some offset =>
    if 1 ≤ month ∧ month ≤ 12 ∧ 1 ≤ day ∧ day ≤ daysInMonth year month ∧
        hour ≤ 23 ∧ minute ≤ 59 ∧ second ≤ 59 then
      some (((daysSinceGoZero year month day * 86400 +
        (hour : Int) * 3600 + (minute : Int) * 60 + (second : Int) - offset) *
          1000000000) + (nanos : Int))
    else none

/-- `t, _ := time.Parse(time.RFC3339, s)` with the error ignored: a failed
parse leaves the zero `time.Time`, which is instant `0` in this model. -/
def goParseOrZero (s : String) : Int := (goParseRFC3339 s).getD 0

/-! ## Wire model (`models.CreateOrUpdateConfigCmd` and friends)

Struct fields that the source may leave unassigned keep their Go zero
values (`""`, `0`, `false`, empty slice); fields carried behind a pointer
that may stay `nil` (`Options.TimeRange`) and fields whose zero value the
source distinguishes from "assigned" (`StartDate`/`EndDate` of type
`strfmt.DateTime`, the opaque `TemplateVars` interface) are `Option`s. -/

structure TimeRangeDTO where
  fromTime : String
  toTime : String
  deriving Repr, DecidableEq

structure ReportOptionsDTO where
  layout : String
  orientation : String
  timeRange : Option TimeRangeDTO
  deriving Repr, DecidableEq

structure DashboardReportDTO where
  uid : String
  deriving Repr, DecidableEq

structure DashboardDTO where
  dashboard : DashboardReportDTO
  reportVariables : Option String
  timeRange : TimeRangeDTO
  deriving Repr, DecidableEq

structure ScheduleDTO where
  frequency : String
  timeZone : String
  startDate : Option Int
  endDate : Option Int
  workdaysOnly : Bool
  dayOfMonth : String
  intervalAmount : Int
  intervalFrequency : String
  deriving Repr, DecidableEq

structure CreateOrUpdateConfigCmd where
  name : String
  enableDashboardURL : Bool
  enableCSV : Bool
  message : String
  options : ReportOptionsDTO
  recipients : String
  replyTo : String
  scaleFactor : Int
  state : String
  schedule : ScheduleDTO
  formats : List String
  dashboards : List DashboardDTO
  dashboardID : Int
  templateVars : Option String
  deriving Repr, DecidableEq

/-! ## Declarative configuration (the Terraform schema state read via `d.Get`)

Optional string attributes read back as `""`, optional booleans as `false`,
and the single-element `time_range`/`schedule` blocks as their fields; the
`dashboards` block list is a list of records. -/

structure TimeRangeBlock where
  fromTime : String
  toTime : String
  deriving Repr, DecidableEq

structure DashboardBlock where
  uid : String
  timeRange : Option TimeRangeBlock
  reportVariables : String
  deriving Repr, DecidableEq

structure ScheduleBlock where
  frequency : String
  startTime : String
  endTime : String
  workdaysOnly : Bool
  customInterval : String
  lastDayOfMonth : Bool
  timezone : String
  deriving Repr, DecidableEq

structure ReportConfigData where
  name : String
  dashboardId : Int
  dashboardUid : String
  recipients : List String
  replyTo : String
  message : String
  includeDashboardLink : Bool
  includeTableCsv : Bool
  layout : String
  orientation : String
  formats : List String
  state : String
  scaleFactor : Int
  timeRange : Option TimeRangeBlock
  schedule : ScheduleBlock
  dashboards : List DashboardBlock
  deriving Repr, DecidableEq

/-! ## Report Config Assembler, forward direction (source lines 456-536) -/

/-- Model of `createReportSchema` (source lines 480-499): the
identity-independent scalar fields; every other wire field keeps its zero
value. -/
def createReportSchema (cfg : ReportConfigData) : CreateOrUpdateConfigCmd :=
  { name := cfg.name
    enableDashboardURL := cfg.includeDashboardLink
    enableCSV := cfg.includeTableCsv
    message := cfg.message
    options := { layout := cfg.layout, orientation := cfg.orientation, timeRange := none }
    recipients := String.intercalate "," cfg.recipients
    replyTo := cfg.replyTo
    scaleFactor := cfg.scaleFactor
    state := cfg.state
    schedule :=
      { frequency := cfg.schedule.frequency
        timeZone := cfg.schedule.timezone
        startDate := none
        endDate := none
        workdaysOnly := false
        dayOfMonth := ""
        intervalAmount := 0
        intervalFrequency := "" }
    formats := []
    dashboards := []
    dashboardID := 0
    templateVars := none }

/-- Model of `setDeprecatedDashboardValues` (source lines 501-536).  The Go
code reads `d.Get("template_vars")`, but `template_vars` is not an attribute
of this resource's schema, so the value is always `nil` (`none`). -/
def setDeprecatedDashboardValues (report : CreateOrUpdateConfigCmd)
    (cfg : ReportConfigData) : Except String CreateOrUpdateConfigCmd :=
  let id := cfg.dashboardId
  let uid := cfg.dashboardUid
  let timeRangeDTO : TimeRangeDTO :=
    match cfg.timeRange with
    | some tr => { fromTime := tr.fromTime, toTime := tr.toTime }
    | none => { fromTime := "", toTime := "" }
  if id = 0 ∧ uid = "" then
    .error "dashboard_id or dashboard_uid should be set"
  else if uid = "" then
    .ok { report with
            dashboardID := id
            options := { report.options with timeRange := some timeRangeDTO }
            templateVars := none }
  else
    .ok { report with
            dashboards :=
              [{ dashboard := { uid := uid }
                 reportVariables := none
                 timeRange := timeRangeDTO }] }

/-- Model of `reportWorkdaysOnlyConfigAllowed` (source lines 586-588). -/
def reportWorkdaysOnlyConfigAllowed (frequency : String) : Bool :=
  frequency = reportFrequencyHourly || frequency = reportFrequencyDaily ||
    frequency = reportFrequencyCustom

/-- Error text standing for the `*time.ParseError` that Go's `time.Parse`
returns; the source propagates it verbatim. -/
def rfc3339ParseErr (s : String) : String :=
  "parsing time " ++ s ++ " as RFC3339: cannot parse"

/-- Model of `setReportFrequency` (source lines 538-584), which mutates
`report.Schedule` field by field with the source's guards and returns the
first error.  Error order matches the source: start-time parse error, then
end-time parse error, then custom-interval parse error.  The start (resp.
end) date is only assigned when the frequency guard holds and the declared
string is non-empty; `DayOfMonth` is assigned `"last"` only for a monthly
frequency with the flag set; `WorkdaysOnly` is assigned only when
`reportWorkdaysOnlyConfigAllowed`; the interval fields are assigned only for
a custom frequency. -/
def setReportFrequency (report : CreateOrUpdateConfigCmd)
    (cfg : ReportConfigData) : Except String CreateOrUpdateConfigCmd :=
  let freq := report.schedule.frequency
  let startRes : Except String (Option Int) :=
    if freq ≠ reportFrequencyNever ∧ cfg.schedule.startTime ≠ "" then
      match goParseRFC3339 cfg.schedule.startTime with
      | none => .error (rfc3339ParseErr cfg.schedule.startTime)
      | some t => .ok (some t)
    else .ok report.schedule.startDate
  match startRes with
  | .error e => .error e
  | .ok startDate =>
    let endRes : Except String (Option Int) :=
      if freq ≠ reportFrequencyOnce ∧ freq ≠ reportFrequencyNever ∧
          cfg.schedule.endTime ≠ "" then
        match goParseRFC3339 cfg.schedule.endTime with
        | none => .error (rfc3339ParseErr cfg.schedule.endTime)
        | some t => .ok (some t)
      else .ok report.schedule.endDate
    match endRes with
    | .error e => .error e
    | .ok endDate =>
      let dayOfMonth :=
        if freq = reportFrequencyMonthly ∧ cfg.schedule.lastDayOfMonth then "last"
        else report.schedule.dayOfMonth
      let workdaysOnly :=
        if reportWorkdaysOnlyConfigAllowed freq then cfg.schedule.workdaysOnly
        else report.schedule.workdaysOnly
      if freq = reportFrequencyCustom then
        match parseCustomReportInterval cfg.schedule.customInterval with
        | .error e => .error e
        | .ok (amount, unit) =>
          .ok { report with
                  schedule := { report.schedule with
                                  startDate := startDate, endDate := endDate
                                  dayOfMonth := dayOfMonth
                                  workdaysOnly := workdaysOnly
                                  intervalAmount := amount
                                  intervalFrequency := unit } }
      else
        .ok { report with
                schedule := { report.schedule with
                                startDate := startDate, endDate := endDate
                                dayOfMonth := dayOfMonth
                                workdaysOnly := workdaysOnly } }

/-- Model of `schemaToReportParams` (source lines 456-478).  When the
`dashboards` list is non-empty the source's assignment
`report.Dashboards = dashboards` is commented out, so the branch does
nothing; otherwise the deprecated dashboard fields are resolved.  Then the
formats default is applied and the schedule is translated. -/
def schemaToReportParams (cfg : ReportConfigData) :
    Except String CreateOrUpdateConfigCmd :=
  let report := createReportSchema cfg
  let resolved : Except String CreateOrUpdateConfigCmd :=
    if cfg.dashboards.length > 0 then
      .ok report
    else
      setDeprecatedDashboardValues report cfg
  match resolved with
  | .error e => .error e
  | .ok report =>
    let report :=
      if cfg.formats.length = 0 then { report with formats := [reportFormatPDF] }
      else report
    setReportFrequency report cfg

/-! ## `CreateReport` control flow (source lines 325-342)

`CreateReport` builds the wire command, but the statement
`diag.FromErr(err)` inside `if err != nil` discards its result instead of
returning it, so execution always reaches `client.Reports.CreateReport`.
The network interaction is modelled as the list of calls issued, with the
body that is attached (`none` models the `nil` command left by a failed
build). -/

inductive NetworkCall where
  | createReport (body : Option CreateOrUpdateConfigCmd)
  deriving Repr, DecidableEq

def createReportNetworkCalls (cfg : ReportConfigData) : List NetworkCall :=
  match schemaToReportParams cfg with
  | .error _ => [.createReport none]
  | .ok cmd => [.createReport (some cmd)]

/-! ## Read path (source lines 344-419, `ReadReport`)

The wire entity returned by the GET endpoint.  Its schedule dates travel as
strings (`strfmt.DateTime.String()`), and its dashboard entries carry both a
numeric id and a uid. -/

structure ReadDashboardInner where
  id : Int
  uid : String
  deriving Repr, DecidableEq

structure ReadDashboardDTO where
  dashboard : ReadDashboardInner
  timeRange : TimeRangeDTO
  deriving Repr, DecidableEq

structure ReadScheduleDTO where
  frequency : String
  timeZone : String
  startDate : String
  endDate : String
  workdaysOnly : Bool
  dayOfMonth : String
  intervalAmount : Int
  intervalFrequency : String
  deriving Repr, DecidableEq

structure ReportPayload where
  orgID : Int
  name : String
  recipients : String
  replyTo : String
  message : String
  enableDashboardURL : Bool
  enableCSV : Bool
  layout : String
  orientation : String
  state : String
  scaleFactor : Int
  formats : List String
  dashboards : List ReadDashboardDTO
  schedule : ReadScheduleDTO
  deriving Repr, DecidableEq

/-- The `schedule` block that `ReadReport` writes back into state (source
lines 390-416).  A key that the source only assigns conditionally is an
`Option`, `none` meaning the key is absent from the map. -/
structure ReadScheduleState where
  timezone : String
  frequency : String
  workdaysOnly : Bool
  customInterval : Option String
  startTime : Option Int
  endTime : Option Int
  lastDayOfMonth : Option Bool
  deriving Repr, DecidableEq

/-- Model of the schedule reconstruction in `ReadReport`: `custom_interval`
is synthesized when both wire interval fields are non-zero; a non-empty
start/end date string is re-parsed as RFC3339 (a failure aborts the read
with that error) and stored as a UTC instant; `last_day_of_month` is set
exactly when the wire day-of-month is `"last"`. -/
def readSchedule (w : ReadScheduleDTO) : Except String ReadScheduleState :=
  let base : ReadScheduleState :=
    { timezone := w.timeZone
      frequency := w.frequency
      workdaysOnly := w.workdaysOnly
      customInterval :=
        if w.intervalAmount ≠ 0 ∧ w.intervalFrequency ≠ "" then
          some (formatCustomInterval w.intervalAmount w.intervalFrequency)
        else none
      startTime := none
      endTime := none
      lastDayOfMonth := none }
  let startRes : Except String (Option Int) :=
    if w.startDate ≠ "" then
      match goParseRFC3339 w.startDate with
      | none => .error (rfc3339ParseErr w.startDate)
      | some t => .ok (some t)
    else .ok none
  match startRes with
  | .error e => .error e
  | .ok st =>
    let endRes : Except String (Option Int) :=
      if w.endDate ≠ "" then
        match goParseRFC3339 w.endDate with
        | none => .error (rfc3339ParseErr w.endDate)
        | some t => .ok (some t)
      else .ok none
    match endRes with
    | .error e => .error e
    | .ok en =>
      .ok { base with
              startTime := st
              endTime := en
              lastDayOfMonth := if w.dayOfMonth = "last" then some true else none }

/-- What the declarative state looks like after a successful `ReadReport`
(the fields the read path rebuilds). -/
structure ReadState where
  dashboardId : Int
  dashboardUid : String
  name : String
  recipients : List String
  replyTo : String
  message : String
  timeRange : Option TimeRangeDTO
  schedule : ReadScheduleState
  deriving Repr, DecidableEq

/-- Outcome of `ReadReport` on a wire entity: `panics` models the Go runtime
index-out-of-range panic raised by `r.Payload.Dashboards[0]`, `fails` models
an error returned as diagnostics, `ok` a completed read. -/
inductive ReadOutcome where
  | panics
  | fails (msg : String)
  | ok (st : ReadState)
  deriving Repr, DecidableEq

/-- Model of `ReadReport`'s decomposition of the wire entity (source lines
357-417).  Lines 358-359 index `r.Payload.Dashboards[0]` with no emptiness
check, so an entity with no dashboard entries panics before anything else;
with at least one entry the zeroth one populates the legacy singular fields,
and the legacy `time_range` is only set when its `From` is non-empty. -/
def readReportModel (p : ReportPayload) : ReadOutcome :=
  match p.dashboards with
  | [] => .panics
  | d0 :: _ =>
    match readSchedule p.schedule with
    | .error e => .fails e
    | .ok sched =>
      .ok { dashboardId := d0.dashboard.id
            dashboardUid := d0.dashboard.uid
            name := p.name
            recipients := goSplit ',' p.recipients
            replyTo := p.replyTo
            message := p.message
            timeRange :=
              if d0.timeRange.fromTime ≠ "" then some d0.timeRange else none
            schedule := sched }

/-! ## Diff-suppress equivalences on start/end times (source lines 211-232)

Both functions parse `old` and `new` with the error discarded, so an
unparseable or empty value is the Go zero time (instant `0`).  `now` is the
value of `time.Now()` at the moment the function runs. -/

def startTimeDiffSuppress (old new : String) (now : Int) : Bool :=
  let oldParsed := goParseOrZero old
  let newParsed := goParseOrZero new
  if new = "" ∧ oldParsed < now then true
  else oldParsed == newParsed

def endTimeDiffSuppress (old new : String) : Bool :=
  goParseOrZero old == goParseOrZero new

/-! ## Concrete configurations used by witnesses and counterexamples -/

/-- A neutral schedule block: daily frequency, all optional fields at their
schema defaults. -/
def baseSchedule : ScheduleBlock :=
  { frequency := "daily", startTime := "", endTime := "", workdaysOnly := false
    customInterval := "", lastDayOfMonth := false, timezone := "GMT" }

/-- A minimal valid legacy-uid configuration. -/
def baseCfg : ReportConfigData :=
  { name := "r", dashboardId := 0, dashboardUid := "d"
    recipients := ["someone@company.com"], replyTo := "", message := ""
    includeDashboardLink := true, includeTableCsv := false
    layout := "grid", orientation := "landscape"
    formats := [], state := "scheduled", scaleFactor := 2
    timeRange := none, schedule := baseSchedule, dashboards := [] }

/-- The §8 scenario configuration (the acceptance-test fixture
`resource "grafana_report" "test"` with two dashboards blocks): monthly
frequency on the last day of the month in the America/Los_Angeles timezone,
two dashboard bindings with uid `"report"`, the first carrying the
`now-1h`/`now` time range, formats `{pdf}`. -/
def scenarioConfig : ReportConfigData :=
  { name := "multiple dashboards report"
    dashboardId := 0, dashboardUid := ""
    recipients := ["some@email.com"], replyTo := "", message := ""
    includeDashboardLink := true, includeTableCsv := false
    layout := "grid", orientation := "portrait"
    formats := ["pdf"], state := "scheduled", scaleFactor := 2
    timeRange := none
    schedule :=
      { frequency := "monthly", startTime := "", endTime := ""
        workdaysOnly := false, customInterval := ""
        lastDayOfMonth := true, timezone := "America/Los_Angeles" }
    dashboards :=
      [ { uid := "report"
          timeRange := some { fromTime := "now-1h", toTime := "now" }
          reportVariables := "" }
      , { uid := "report", timeRange := none, reportVariables := "" } ] }

/-- A configuration with no dashboard identity at all: empty dashboards
list, zero legacy id, empty legacy uid. -/
def missingDashboardCfg : ReportConfigData :=
  { baseCfg with dashboardUid := "" }

/-- Frequency `once` with a non-empty `end_time`. -/
def onceEndCfg : ReportConfigData :=
  { baseCfg with
      schedule := { baseSchedule with
                      frequency := "once"
                      endTime := "2024-06-01T00:00:00Z" } }

/-! ## Claim theorems -/

/-- **C1.**  For the §8 scenario configuration — current-form dashboards
list with two entries — `schemaToReportParams` succeeds and builds the
schedule as specified (`dayOfMonth = "last"`, the Los Angeles timezone), but
the wire command's dashboards array is *empty*: the claimed two binding
entries are never copied from the list, because the assignment
`report.Dashboards = dashboards` is commented out in the source.  This
exhibits the code bug refuting the claim. -/
theorem c1_scenario_dashboards_never_copied :
    (schemaToReportParams scenarioConfig).map
        (fun c => (c.dashboards, c.schedule.dayOfMonth, c.schedule.timeZone)) =
      .ok ([], "last", "America/Los_Angeles") := rfl

/-- **C3.**  On a configuration with no dashboard identity,
`schemaToReportParams` fails with the dashboard-identity validation error,
yet `CreateReport` still issues the create network call (with the `nil`
body): the `diag.FromErr(err)` result on the error path is discarded
instead of returned, so the validation error does **not** reach the caller
before the network call.  This exhibits the code bug refuting the claim. -/
theorem c3_create_report_ignores_validation_error :
    schemaToReportParams missingDashboardCfg =
        .error "dashboard_id or dashboard_uid should be set" ∧
      createReportNetworkCalls missingDashboardCfg = [.createReport none] :=
  ⟨rfl, rfl⟩

/-- Replace the declared `end_time` of a configuration. -/
def setEndTime (cfg : ReportConfigData) (e : String) : ReportConfigData :=
  { cfg with schedule := { cfg.schedule with endTime := e } }

/-- **C2, counterexample.**  Frequency `once` with the non-empty end time
`2024-06-01T00:00:00Z`: `setReportFrequency` does **not** fail — it
succeeds, leaving the wire end date unset — refuting the claim that the
combination is rejected with an error at translation time. -/
theorem c2_counterexample :
    onceEndCfg.schedule.endTime ≠ "" ∧
      (setReportFrequency (createReportSchema onceEndCfg) onceEndCfg).map
          (fun r => r.schedule.endDate) = .ok none :=
  ⟨by decide, rfl⟩

/-- **C2, amended.**  For every declarative config with frequency `once` or
`never`, schedule translation silently drops the end time instead of
rejecting it: any successful translation leaves the wire end date unset,
and the whole translation result is unchanged under replacing the declared
`end_time` by any other value (in particular it raises no error on account
of the end time). -/
theorem c2_end_time_silently_dropped :
    ∀ cfg : ReportConfigData,
      cfg.schedule.frequency = reportFrequencyOnce ∨
        cfg.schedule.frequency = reportFrequencyNever →
      (∀ r, setReportFrequency (createReportSchema cfg) cfg = .ok r →
        r.schedule.endDate = none) ∧
      (∀ e, setReportFrequency (createReportSchema cfg) cfg =
        setReportFrequency (createReportSchema (setEndTime cfg e)) (setEndTime cfg e)) := by
  intro cfg h
  have hg : ¬((createReportSchema cfg).schedule.frequency ≠ reportFrequencyOnce ∧
      (createReportSchema cfg).schedule.frequency ≠ reportFrequencyNever ∧
      cfg.schedule.endTime ≠ "") := by
    rcases h with h | h <;> simp [createReportSchema, h]
  constructor
  · intro r hr
    unfold setReportFrequency at hr
    simp only [if_neg hg] at hr
    split at hr
    · exact absurd hr (by simp)
    · split at hr
      · split at hr
        · exact absurd hr (by simp)
        · cases hr
          rfl
      · cases hr
        rfl
  · intro e
    have hcs : createReportSchema (setEndTime cfg e) = createReportSchema cfg := rfl
    unfold setReportFrequency
    rw [hcs]
    have hg2 : ¬((createReportSchema cfg).schedule.frequency ≠ reportFrequencyOnce ∧
        (createReportSchema cfg).schedule.frequency ≠ reportFrequencyNever ∧ e ≠ "") := by
      rcases h with h | h <;> simp [createReportSchema, h]
    simp only [setEndTime, if_neg hg, if_neg hg2]

/-- **C2, witness.**  The amended theorem applied to the concrete `once`
configuration with a populated end time. -/
theorem c2_witness :
    setReportFrequency (createReportSchema onceEndCfg) onceEndCfg =
      setReportFrequency (createReportSchema (setEndTime onceEndCfg ""))
        (setEndTime onceEndCfg "") :=
  (c2_end_time_silently_dropped onceEndCfg (Or.inl rfl)).2 ""

/-- Field characterization of a successful `setReportFrequency`: the
day-of-month sentinel is written iff the frequency is monthly and the flag
is set, `WorkdaysOnly` is copied iff `reportWorkdaysOnlyConfigAllowed`, and
the formats slice is untouched. -/
theorem setReportFrequency_ok_fields (report : CreateOrUpdateConfigCmd)
    (cfg : ReportConfigData) (r : CreateOrUpdateConfigCmd)
    (hr : setReportFrequency report cfg = .ok r) :
    r.schedule.dayOfMonth =
        (if report.schedule.frequency = reportFrequencyMonthly ∧
            cfg.schedule.lastDayOfMonth then "last" else report.schedule.dayOfMonth) ∧
      r.schedule.workdaysOnly =
        (if reportWorkdaysOnlyConfigAllowed report.schedule.frequency then
            cfg.schedule.workdaysOnly else report.schedule.workdaysOnly) ∧
      r.formats = report.formats := by
  simp only [setReportFrequency] at hr
  repeat' split at hr
  all_goals first
    | exact Except.noConfusion hr
    | (cases hr
       refine ⟨?_, ?_, rfl⟩ <;> (split <;> first | rfl | simp_all))

/-- The dashboard binding resolver never touches the schedule or the
formats slice. -/
theorem setDeprecatedDashboardValues_ok_preserves (report : CreateOrUpdateConfigCmd)
    (cfg : ReportConfigData) (r : CreateOrUpdateConfigCmd)
    (h : setDeprecatedDashboardValues report cfg = .ok r) :
    r.schedule = report.schedule ∧ r.formats = report.formats := by
  simp only [setDeprecatedDashboardValues] at h
  split at h
  · exact Except.noConfusion h
  · split at h <;> (cases h; exact ⟨rfl, rfl⟩)

/-- A successful `schemaToReportParams` is a successful `setReportFrequency`
applied to an intermediate command whose schedule is the one built by
`createReportSchema` and whose formats are the defaulting result. -/
theorem schemaToReportParams_ok_decompose (cfg : ReportConfigData)
    (cmd : CreateOrUpdateConfigCmd) (hc : schemaToReportParams cfg = .ok cmd) :
    ∃ rep, setReportFrequency rep cfg = .ok cmd ∧
      rep.schedule = (createReportSchema cfg).schedule ∧
      rep.formats = (if cfg.formats.length = 0 then [reportFormatPDF] else []) := by
  simp only [schemaToReportParams] at hc
  split at hc
  · exact Except.noConfusion hc
  · rename_i resolved rep hres
    have hrep : rep.schedule = (createReportSchema cfg).schedule ∧ rep.formats = [] := by
      split at hres
      · cases hres
        exact ⟨rfl, rfl⟩
      · exact setDeprecatedDashboardValues_ok_preserves _ _ _ hres
    by_cases hf : cfg.formats.length = 0
    · rw [if_pos hf] at hc
      refine ⟨_, hc, hrep.1, ?_⟩
      rw [if_pos hf]
    · rw [if_neg hf] at hc
      refine ⟨_, hc, hrep.1, ?_⟩
      rw [if_neg hf]
      exact hrep.2

/-- The read path sets the `last_day_of_month` key exactly when the wire
day-of-month is the `"last"` sentinel. -/
theorem readSchedule_ok_lastDay (w : ReadScheduleDTO) (st : ReadScheduleState)
    (h : readSchedule w = .ok st) :
    st.lastDayOfMonth = (if w.dayOfMonth = "last" then some true else none) := by
  simp only [readSchedule] at h
  repeat' split at h
  all_goals first
    | exact Except.noConfusion h
    | (cases h; split <;> first | rfl | simp_all)

/-- **C6.**  Forward: a successfully built wire command carries
`dayOfMonth = "last"` iff the declared frequency is `monthly` and the
`last_day_of_month` flag is set (any other frequency never produces
`"last"`, since the field otherwise keeps its zero value `""`).  Reverse:
reading a wire schedule back sets the declarative `last_day_of_month` flag
iff the wire day-of-month equals `"last"`. -/
theorem c6_last_day_of_month :
    (∀ cfg cmd, schemaToReportParams cfg = .ok cmd →
      (cmd.schedule.dayOfMonth = "last" ↔
        cfg.schedule.frequency = reportFrequencyMonthly ∧
          cfg.schedule.lastDayOfMonth = true)) ∧
    (∀ w st, readSchedule w = .ok st →
      (st.lastDayOfMonth = some true ↔ w.dayOfMonth = "last")) := by
  constructor
  · intro cfg cmd hc
    obtain ⟨rep, hok, hsched, _⟩ := schemaToReportParams_ok_decompose cfg cmd hc
    obtain ⟨hday, _, _⟩ := setReportFrequency_ok_fields rep cfg cmd hok
    rw [hsched] at hday
    simp only [createReportSchema] at hday
    rw [hday]
    by_cases hcond : cfg.schedule.frequency = reportFrequencyMonthly ∧
        cfg.schedule.lastDayOfMonth = true
    · simp [hcond]
    · simp only [if_neg hcond]
      constructor
      · intro hcontra
        exact absurd hcontra (by decide)
      · intro hcontra
        exact absurd hcontra hcond
  · intro w st h
    rw [readSchedule_ok_lastDay w st h]
    by_cases hd : w.dayOfMonth = "last"
    · simp [hd]
    · simp [hd]

/-- **C6, witness.**  A concrete monthly configuration with the flag set:
the built command carries `dayOfMonth = "last"`. -/
def monthlyCfg : ReportConfigData :=
  { baseCfg with
      schedule := { baseSchedule with frequency := "monthly", lastDayOfMonth := true } }

def monthlyCmd : CreateOrUpdateConfigCmd :=
  (schemaToReportParams monthlyCfg).toOption.getD (createReportSchema monthlyCfg)

theorem c6_witness :
    monthlyCmd.schedule.dayOfMonth = "last" ↔
      monthlyCfg.schedule.frequency = reportFrequencyMonthly ∧
        monthlyCfg.schedule.lastDayOfMonth = true :=
  c6_last_day_of_month.1 monthlyCfg monthlyCmd rfl

/-- **C7.**  A successfully built wire command transmits `workdays_only`
exactly for the frequencies `hourly`, `daily`, `custom`
(`reportWorkdaysOnlyConfigAllowed`); for every other frequency the wire
field keeps its zero value `false` regardless of the declared flag — the
assignment never happens. -/
theorem c7_workdays_only :
    ∀ cfg cmd, schemaToReportParams cfg = .ok cmd →
      cmd.schedule.workdaysOnly =
        (if reportWorkdaysOnlyConfigAllowed cfg.schedule.frequency then
          cfg.schedule.workdaysOnly else false) := by
  intro cfg cmd hc
  obtain ⟨rep, hok, hsched, _⟩ := schemaToReportParams_ok_decompose cfg cmd hc
  obtain ⟨_, hwd, _⟩ := setReportFrequency_ok_fields rep cfg cmd hok
  rw [hsched] at hwd
  simpa only [createReportSchema] using hwd

/-- **C7, witness.**  A weekly configuration declaring `workdays_only =
true`: the built command still carries `workdaysOnly = false`. -/
def weeklyWorkdaysCfg : ReportConfigData :=
  { baseCfg with
      schedule := { baseSchedule with frequency := "weekly", workdaysOnly := true } }

def weeklyWorkdaysCmd : CreateOrUpdateConfigCmd :=
  (schemaToReportParams weeklyWorkdaysCfg).toOption.getD
    (createReportSchema weeklyWorkdaysCfg)

theorem c7_witness :
    weeklyWorkdaysCmd.schedule.workdaysOnly =
      (if reportWorkdaysOnlyConfigAllowed weeklyWorkdaysCfg.schedule.frequency then
        weeklyWorkdaysCfg.schedule.workdaysOnly else false) :=
  c7_workdays_only weeklyWorkdaysCfg weeklyWorkdaysCmd rfl

/-- **C9.**  A successfully built wire command leaves the formats field at
its zero value (never set) whenever the declared formats set is non-empty —
the declared strings are read but never copied — and carries exactly
`[pdf]` when the declared set is empty. -/
theorem c9_formats :
    ∀ cfg cmd, schemaToReportParams cfg = .ok cmd →
      cmd.formats = (if cfg.formats = [] then [reportFormatPDF] else []) := by
  intro cfg cmd hc
  obtain ⟨rep, hok, _, hfmt⟩ := schemaToReportParams_ok_decompose cfg cmd hc
  obtain ⟨_, _, hf⟩ := setReportFrequency_ok_fields rep cfg cmd hok
  rw [hf, hfmt]
  simp [List.length_eq_zero]

/-- **C9, witness.**  A configuration declaring formats `{csv}`: the built
command's formats field stays empty. -/
def csvFormatsCfg : ReportConfigData := { baseCfg with formats := ["csv"] }

def csvFormatsCmd : CreateOrUpdateConfigCmd :=
  (schemaToReportParams csvFormatsCfg).toOption.getD (createReportSchema csvFormatsCfg)

theorem c9_witness :
    csvFormatsCmd.formats =
      (if csvFormatsCfg.formats = [] then [reportFormatPDF] else []) :=
  c9_formats csvFormatsCfg csvFormatsCmd rfl

/-- **C10.**  The read path crashes (index-out-of-range panic on
`r.Payload.Dashboards[0]`) exactly on wire entities whose dashboards array
is empty; with at least one entry the zeroth-entry access is in bounds and
the read either completes or returns an ordinary error. -/
theorem c10_read_panics_iff_no_dashboards :
    ∀ p : ReportPayload, readReportModel p = ReadOutcome.panics ↔ p.dashboards = [] := by
  intro p
  rcases hp : p.dashboards with _ | ⟨d0, rest⟩
  · constructor
    · intro _
      rfl
    · intro _
      unfold readReportModel
      rw [hp]
  · constructor
    · intro h
      exfalso
      unfold readReportModel at h
      rw [hp] at h
      dsimp only at h
      split at h <;> exact ReadOutcome.noConfusion h
    · intro hcontra
      exact List.noConfusion hcontra

/-- The claimed start-time reconciliation equivalence, with the
zero-instant defaulting the code actually performs: an empty declared start
equals a stored start whose parsed instant (zero when empty or unparseable)
is strictly before now, and otherwise the two zero-defaulted instants must
coincide. -/
def specStartTimeEquiv (old new : String) (now : Int) : Prop :=
  (new = "" ∧ goParseOrZero old < now) ∨ goParseOrZero old = goParseOrZero new

/-- The claimed end-time reconciliation equivalence with zero-instant
defaulting: the two values' parsed instants (zero when empty or
unparseable) must coincide. -/
def specEndTimeEquiv (old new : String) : Prop :=
  goParseOrZero old = goParseOrZero new

/-- **C8, counterexample.**  The stored end time `0001-01-01T00:00:00Z` is
a valid, non-empty RFC3339 string parsing to Go's zero time, and the
end-time diff-suppress declares it equivalent to the empty declared end
time — refuting "an empty declared end time is equivalent only to an empty
stored end time". -/
theorem c8_counterexample :
    endTimeDiffSuppress "0001-01-01T00:00:00Z" "" = true ∧
      ("0001-01-01T00:00:00Z" : String) ≠ "" :=
  ⟨rfl, by decide⟩

/-- **C8, amended.**  The start-time equivalence holds iff the declared
value is empty and the stored value's zero-defaulted parse is strictly
before now, or the two zero-defaulted parses denote the same instant; the
end-time equivalence (which indeed has no empty/past special case) holds
iff the two zero-defaulted parses denote the same instant — so an empty
declared end time is equivalent to an empty stored end time and to any
stored end time parsing to the zero instant. -/
theorem c8_zero_defaulted_equivalences :
    ∀ old new now,
      (startTimeDiffSuppress old new now = true ↔ specStartTimeEquiv old new now) ∧
      (endTimeDiffSuppress old new = true ↔ specEndTimeEquiv old new) := by
  intro old new now
  constructor
  · simp only [startTimeDiffSuppress, specStartTimeEquiv]
    split
    · rename_i hcond
      simp [hcond]
    · rename_i hcond
      simp only [beq_iff_eq]
      constructor
      · exact Or.inr
      · rintro (h | h)
        · exact absurd h hcond
        · exact h
  · simp only [endTimeDiffSuppress, specEndTimeEquiv]
    exact beq_iff_eq

/-! ## Decimal digits invert parsing: lemmas for the interval round trip -/

theorem digitChar_toNat (d : Nat) (h : d < 10) : (digitChar d).toNat = 48 + d := by
  interval_cases d <;> decide

theorem natDigitsAux_all_digits (fuel n : Nat) (h : n < fuel) :
    ∀ c ∈ natDigitsAux fuel n, 48 ≤ c.toNat ∧ c.toNat ≤ 57 := by
  induction fuel generalizing n with
  | zero => omega
  | succ fuel ih =>
    intro c hc
    rw [natDigitsAux] at hc
    by_cases h10 : n < 10
    · rw [if_pos h10] at hc
      rcases List.mem_singleton.mp hc with rfl
      rw [digitChar_toNat n h10]
      omega
    · rw [if_neg h10] at hc
      rcases List.mem_append.mp hc with hc | hc
      · have hlt : n / 10 < fuel := by
          have := Nat.div_lt_self (by omega : 0 < n) (by norm_num : 1 < 10)
          omega
        exact ih (n / 10) hlt c hc
      · rcases List.mem_singleton.mp hc with rfl
        rw [digitChar_toNat (n % 10) (Nat.mod_lt n (by norm_num))]
        omega

theorem natDigitsAux_ne_nil (fuel n : Nat) (h : n < fuel) :
    natDigitsAux fuel n ≠ [] := by
  cases fuel with
  | zero => omega
  | succ fuel =>
    rw [natDigitsAux]
    by_cases h10 : n < 10
    · rw [if_pos h10]
      simp
    · rw [if_neg h10]
      simp

theorem digitsValCore_append (l₁ l₂ : List Char) (acc : Nat) :
    digitsValCore (l₁ ++ l₂) acc =
      match digitsValCore l₁ acc with
      | some b => digitsValCore l₂ b
      | none => none := by
  induction l₁ generalizing acc with
  | nil => rfl
  | cons c cs ih =>
    rw [List.cons_append, digitsValCore, digitsValCore]
    by_cases hd : 48 ≤ c.toNat ∧ c.toNat ≤ 57
    · rw [if_pos hd, if_pos hd, ih]
    · rw [if_neg hd, if_neg hd]

theorem digitsValCore_natDigitsAux (fuel n acc : Nat) (h : n < fuel) :
    digitsValCore (natDigitsAux fuel n) acc =
      some (acc * 10 ^ (natDigitsAux fuel n).length + n) := by
  induction fuel generalizing n acc with
  | zero => omega
  | succ fuel ih =>
    rw [natDigitsAux]
    by_cases h10 : n < 10
    · rw [if_pos h10]
      have hc : 48 ≤ (digitChar n).toNat ∧ (digitChar n).toNat ≤ 57 := by
        rw [digitChar_toNat n h10]
        omega
      rw [digitsValCore, if_pos hc, digitsValCore, digitChar_toNat n h10]
      simp
    · rw [if_neg h10]
      have hlt : n / 10 < fuel := by
        have := Nat.div_lt_self (by omega : 0 < n) (by norm_num : 1 < 10)
        omega
      rw [digitsValCore_append, ih (n / 10) acc hlt]
      have hmod : n % 10 < 10 := Nat.mod_lt n (by norm_num)
      have hc : 48 ≤ (digitChar (n % 10)).toNat ∧ (digitChar (n % 10)).toNat ≤ 57 := by
        rw [digitChar_toNat _ hmod]
        omega
      dsimp only
      have hsingle : ∀ b : Nat, digitsValCore [digitChar (n % 10)] b =
          some (b * 10 + ((digitChar (n % 10)).toNat - 48)) := by
        intro b
        rw [digitsValCore, if_pos hc, digitsValCore]
      rw [hsingle, digitChar_toNat _ hmod]
      have hlen : (natDigitsAux fuel (n / 10) ++ [digitChar (n % 10)]).length =
          (natDigitsAux fuel (n / 10)).length + 1 := by
        simp
      rw [hlen, pow_succ, ← mul_assoc]
      congr 1
      generalize acc * 10 ^ (natDigitsAux fuel (n / 10)).length = A
      omega

theorem digitsVal_eq_core (l : List Char) (h : l ≠ []) :
    digitsVal l = digitsValCore l 0 := by
  cases l with
  | nil => exact absurd rfl h
  | cons c cs => rfl

theorem digitsVal_natToString (n : Nat) :
    digitsVal (natToString n).data = some n := by
  have hne : natDigitsAux (n + 1) n ≠ [] := natDigitsAux_ne_nil (n + 1) n (by omega)
  have hdata : (natToString n).data = natDigitsAux (n + 1) n := rfl
  rw [hdata, digitsVal_eq_core _ hne,
    digitsValCore_natDigitsAux (n + 1) n 0 (by omega)]
  simp

/-- `strconv.Atoi` inverts the decimal numeral of any `n` within the signed
64-bit range. -/
theorem goAtoi_natToString (n : Nat) (hn : n < 2 ^ 63) :
    goAtoi (natToString n) = some (n : Int) := by
  rcases hL : natDigitsAux (n + 1) n with _ | ⟨c, cs⟩
  · exact absurd hL (natDigitsAux_ne_nil (n + 1) n (by omega))
  · have hcdig : 48 ≤ c.toNat ∧ c.toNat ≤ 57 := by
      refine natDigitsAux_all_digits (n + 1) n (by omega) c ?_
      rw [hL]
      exact List.mem_cons_self c cs
    have hcm : ¬(c = '-' ∨ c = '+') := by
      rintro (rfl | rfl) <;> revert hcdig <;> decide
    have hcm2 : ¬(c = '-') := fun hc => hcm (Or.inl hc)
    have hdv : digitsVal (c :: cs) = some n := by
      rw [← hL]
      exact digitsVal_natToString n
    have hdata : (natToString n).data = c :: cs := hL
    unfold goAtoi
    rw [hdata]
    dsimp only
    rw [if_neg hcm, hdv]
    dsimp only
    rw [if_neg hcm2]
    have hnn : (0 : Int) ≤ (n : Int) := Int.natCast_nonneg n
    have hlt : (n : Int) < 2 ^ 63 := by exact_mod_cast hn
    have hp : (0 : Int) < 2 ^ 63 := by positivity
    rw [if_pos ⟨by linarith, by linarith⟩]

theorem splitOnChar_not_mem (sep : Char) (l : List Char) (h : sep ∉ l) :
    splitOnChar sep l = [l] := by
  induction l with
  | nil => rfl
  | cons c cs ih =>
    have h1 : ¬(sep = c) ∧ sep ∉ cs := by
      rw [List.mem_cons] at h
      exact ⟨fun he => h (Or.inl he), fun he => h (Or.inr he)⟩
    simp only [splitOnChar]
    rw [if_neg (fun he => h1.1 he.symm), ih h1.2]

theorem splitOnChar_append (sep : Char) (l₁ l₂ : List Char) (h : sep ∉ l₁) :
    splitOnChar sep (l₁ ++ sep :: l₂) = l₁ :: splitOnChar sep l₂ := by
  induction l₁ with
  | nil =>
    rw [List.nil_append]
    simp only [splitOnChar]
    rw [if_pos trivial]
  | cons c cs ih =>
    have h1 : ¬(sep = c) ∧ sep ∉ cs := by
      rw [List.mem_cons] at h
      exact ⟨fun he => h (Or.inl he), fun he => h (Or.inr he)⟩
    rw [List.cons_append]
    simp only [splitOnChar]
    rw [if_neg (fun he => h1.1 he.symm), ih h1.2]

theorem natToString_no_space (n : Nat) : ' ' ∉ (natToString n).data := by
  intro hmem
  have hd := natDigitsAux_all_digits (n + 1) n (by omega) ' ' hmem
  revert hd
  decide

theorem string_data_append (a b : String) : (a ++ b).data = a.data ++ b.data := rfl

/-- Splitting `"<numeral> <unit>"` on spaces yields exactly the two
tokens, provided the unit contains no space. -/
theorem goSplit_numeral_unit (n : Nat) (u : String) (hu : ' ' ∉ u.data) :
    goSplit ' ' (natToString n ++ " " ++ u) = [natToString n, u] := by
  unfold goSplit
  have hdata : (natToString n ++ " " ++ u).data =
      (natToString n).data ++ ' ' :: u.data := by
    rw [string_data_append, string_data_append, List.append_assoc]
    rfl
  rw [hdata, splitOnChar_append ' ' _ _ (natToString_no_space n),
    splitOnChar_not_mem ' ' _ hu]
  rfl

/-- The four legal interval units. -/
def intervalUnits : List String := ["hours", "days", "weeks", "months"]

/-- **C4, counterexample.**  `2^63 hours` is of the form `"<n> <unit>"`
with `n ≥ 0` and a legal unit, yet parsing it fails with the grammar error:
`strconv.Atoi` rejects values outside the signed 64-bit range, so the
claimed round trip is impossible for this input. -/
theorem c4_counterexample :
    parseCustomReportInterval "9223372036854775808 hours" =
        .error customIntervalParseErr ∧
      ("9223372036854775808 hours" : String) =
        natToString 9223372036854775808 ++ " " ++ "hours" :=
  ⟨rfl, rfl⟩

/-- **C4, amended.**  For every `n < 2^63` and unit in
`{hours, days, weeks, months}`, parsing `"<n> <unit>"` yields exactly
`(n, unit)`, and reformatting with the read path's `"%d %s"` reproduces
the original string exactly. -/
theorem c4_round_trip :
    ∀ (n : Nat), n < 2 ^ 63 → ∀ u ∈ intervalUnits,
      parseCustomReportInterval (natToString n ++ " " ++ u) = .ok ((n : Int), u) ∧
        formatCustomInterval (n : Int) u = natToString n ++ " " ++ u := by
  intro n hn u hu
  have hu4 : u = "hours" ∨ u = "days" ∨ u = "weeks" ∨ u = "months" := by
    simpa [intervalUnits] using hu
  have hus : ' ' ∉ u.data := by
    rcases hu4 with rfl | rfl | rfl | rfl <;> decide
  constructor
  · unfold parseCustomReportInterval
    rw [goSplit_numeral_unit n u hus]
    dsimp only
    rw [goAtoi_natToString n hn]
    dsimp only
    rw [if_neg (by rcases hu4 with rfl | rfl | rfl | rfl <;> simp)]
  · unfold formatCustomInterval intToString
    rw [if_neg (not_lt.mpr (Int.natCast_nonneg n))]
    rw [Int.toNat_natCast]

/-- **C4, witness.**  The amended round trip at `3 days`. -/
theorem c4_witness :
    parseCustomReportInterval (natToString 3 ++ " " ++ "days") = .ok ((3 : Int), "days") ∧
      formatCustomInterval (3 : Int) "days" = natToString 3 ++ " " ++ "days" :=
  c4_round_trip 3 (by norm_num) "days" (by simp [intervalUnits])

/-- Well-formedness of an interval string per the parser's actual grammar:
exactly two space-separated tokens, an amount accepted by `strconv.Atoi`
(optional sign, decimal digits, signed 64-bit range), and a literal unit. -/
def intervalWellFormed (s : String) : Prop :=
  match goSplit ' ' s with
  | [number, unit] => (goAtoi number).isSome ∧
      (unit = "hours" ∨ unit = "days" ∨ unit = "weeks" ∨ unit = "months")
  | _ => False

/-- **C5, counterexample.**  `"-3 hours"` — whose amount token does *not*
parse as a positive-or-zero decimal integer — is accepted by
`parseCustomReportInterval` with the negative amount `-3`, refuting the
claim that such strings receive the grammar error. -/
theorem c5_counterexample :
    parseCustomReportInterval "-3 hours" = .ok ((-3 : Int), "hours") ∧ (-3 : Int) < 0 :=
  ⟨rfl, by norm_num⟩

/-- **C5, amended.**  Every failure of `parseCustomReportInterval` carries
the single uniform grammar error, and the parser fails exactly on the
strings that are malformed for its actual grammar — wrong token count, an
amount token rejected by `strconv.Atoi` (which accepts optionally *signed*
decimal integers in the 64-bit range, not only positive-or-zero ones), or a
unit token outside `{hours, days, weeks, months}`; being a total function
of the string it never panics. -/
theorem c5_uniform_grammar_error :
    ∀ s, (∀ m, parseCustomReportInterval s = .error m → m = customIntervalParseErr) ∧
      (parseCustomReportInterval s = .error customIntervalParseErr ↔
        ¬ intervalWellFormed s) := by
  intro s
  constructor
  · intro m hm
    unfold parseCustomReportInterval at hm
    repeat' split at hm
    all_goals first
      | exact Except.noConfusion hm
      | (injection hm with h; exact h.symm)
  · unfold parseCustomReportInterval intervalWellFormed
    rcases hsp : goSplit ' ' s with _ | ⟨a, rest⟩
    · simp
    · rcases rest with _ | ⟨b, rest2⟩
      · simp
      · rcases rest2 with _ | ⟨c, rest3⟩
        · dsimp only
          rcases hga : goAtoi a with _ | v
          · simp [hga]
          · dsimp only
            by_cases hb : b ≠ "hours" ∧ b ≠ "days" ∧ b ≠ "weeks" ∧ b ≠ "months"
            · rw [if_pos hb]
              simp [hga]
              tauto
            · rw [if_neg hb]
              push_neg at hb
              constructor
              · intro hcontra
                exact absurd hcontra (by simp)
              · intro hcontra
                exfalso
                apply hcontra
                refine ⟨by simp [hga], ?_⟩
                by_cases h1 : b = "hours"
                · exact Or.inl h1
                · by_cases h2 : b = "days"
                  · exact Or.inr (Or.inl h2)
                  · by_cases h3 : b = "weeks"
                    · exact Or.inr (Or.inr (Or.inl h3))
                    · exact Or.inr (Or.inr (Or.inr (hb h1 h2 h3)))
        · simp

/-- **C5, witness.**  The amended characterization applied to the concrete
malformed string `"3 parsecs"`: its failure carries the uniform message and
certifies ill-formedness. -/
theorem c5_witness :
    customIntervalParseErr = customIntervalParseErr ∧
      ¬ intervalWellFormed "3 parsecs" :=
  ⟨(c5_uniform_grammar_error "3 parsecs").1 customIntervalParseErr rfl,
   (c5_uniform_grammar_error "3 parsecs").2.mp rfl⟩
